import Mathlib

/-!
Verification development for the paragraph-reconstruction engine
(`src/paragraph.rs`): a shallow embedding of the data model and the
operations of `PdfStyledString`, `PdfParagraph` and their helpers,
followed by theorems settling the specification claims.

Page coordinates (`PdfPoints`, an `f32` in the source) are modelled as
exact integers (every input used below is integral and exactly
representable, and its arithmetic is exact, in `f32`); all definitions
are executable.
-/

/-- `PdfPoints` is a typed length in page units (an `f32` wrapper in the
source), modelled as an exact integer. -/
abbrev PdfPoints := ℤ

/-- `PdfPoints::ZERO`. -/
def PdfPoints.ZERO : PdfPoints := 0

/-- Modelled from the spec: the axis-aligned rectangle returned by
`PageObject.bounds()`, with `{ left, bottom, right, top }`. -/
structure PdfRect where
  left : PdfPoints
  bottom : PdfPoints
  right : PdfPoints
  top : PdfPoints
deriving DecidableEq, Repr

/-- Modelled from the spec: `width = right - left`. -/
def PdfRect.width (r : PdfRect) : PdfPoints := r.right - r.left

/-- Modelled from the spec: `height = top - bottom`. -/
def PdfRect.height (r : PdfRect) : PdfPoints := r.top - r.bottom

/-- Modelled from the spec: the external `Font` collaborator, providing
`handle()` (opaque equality-comparable identity), `name()`,
`is_all_caps()` and `is_small_caps()`. -/
structure PdfFont where
  handle : ℕ
  name : String
  is_all_caps : Bool
  is_small_caps : Bool
deriving DecidableEq, Repr

/-- `Font.handle()`. -/
def PdfFont.get_handle (f : PdfFont) : ℕ := f.handle

/-- Modelled from the spec: the external `TextObject` collaborator,
providing `text()`, `font()` and `unscaled_font_size()`. -/
structure PdfPageTextObject where
  text : String
  font : PdfFont
  unscaled_font_size : PdfPoints
deriving DecidableEq, Repr

/-- Modelled from the spec: the external `PageObject` collaborator,
providing `bounds(): Rect?`, `as_text_object(): TextObject?`, and a
stable identity handle for opaque carriage. -/
structure PdfPageObject where
  bounds : Option PdfRect
  as_text_object : Option PdfPageTextObject
  get_object_handle : ℕ
deriving DecidableEq, Repr

/-- A single styled string in a `PdfParagraph`. -/
structure PdfStyledString where
  text : String
  font : PdfFont
  font_size : PdfPoints
deriving DecidableEq, Repr

/-- `PdfStyledString::new`. -/
def PdfStyledString.new (text : String) (font : PdfFont) (font_size : PdfPoints) :
    PdfStyledString :=
  { text := text, font := font, font_size := font_size }

/-- `PdfStyledString::from_text_object`. -/
def PdfStyledString.from_text_object (text_object : PdfPageTextObject) : PdfStyledString :=
  { text := text_object.text
    font := text_object.font
    font_size := text_object.unscaled_font_size }

/-- `PdfStyledString::push`: appends `text`, first appending `separator`
unless the existing text already ends with it. -/
def PdfStyledString.push (s : PdfStyledString) (text : String) (separator : String) :
    PdfStyledString :=
  let t := if s.text.endsWith separator then s.text else s.text ++ separator
  { s with text := t ++ text }

/-- `PdfStyledString::does_match_raw_styling`: font size, then font
handle, then font names (accepting the match when both names are empty). -/
def PdfStyledString.does_match_raw_styling (self : PdfStyledString)
    (other_font_size : PdfPoints) (other_font : PdfFont) : Bool :=
  if self.font_size ≠ other_font_size then
    false
  else if self.font.get_handle ≠ other_font.get_handle then
    false
  else
    let this_font_name := self.font.name
    let other_font_name := other_font.name
    if this_font_name.isEmpty && other_font_name.isEmpty then
      true
    else
      (!this_font_name.isEmpty || !other_font_name.isEmpty)
        && (this_font_name == other_font_name)

/-- `PdfStyledString::does_match_string_styling`. -/
def PdfStyledString.does_match_string_styling (self other : PdfStyledString) : Bool :=
  self.does_match_raw_styling other.font_size other.font

/-- `PdfStyledString::does_match_object_styling`. -/
def PdfStyledString.does_match_object_styling (self : PdfStyledString)
    (other : PdfPageTextObject) : Bool :=
  self.does_match_raw_styling other.unscaled_font_size other.font

/-- The paragraph-relative alignment of a single `PdfLine`. -/
inductive PdfLineAlignment where
  | None
  | LeftAlign
  | RightAlign
  | Center
  | Justify
deriving DecidableEq, Repr

/-- A single fragment in a `PdfParagraph`. -/
inductive PdfParagraphFragment where
  | StyledString (s : PdfStyledString)
  | LineBreak (a : PdfLineAlignment)
  | NonTextObject (handle : ℕ)
deriving DecidableEq, Repr

/-- Overflow behaviour of a paragraph. -/
inductive PdfParagraphOverflowBehaviour where
  | FixHeightExpandWidth
  | FixWidthExpandHeight
  | Clip
deriving DecidableEq, Repr

/-- Line alignment behaviour of a paragraph. -/
inductive PdfParagraphAlignment where
  | LeftAlign
  | RightAlign
  | Center
  | Justify
  | ForceJustify
deriving DecidableEq, Repr

/-- A span of paragraph fragments that make up one line in a `PdfParagraph`. -/
structure PdfLine where
  alignment : PdfLineAlignment
  bottom : PdfPoints
  left : PdfPoints
  width : PdfPoints
  fragments : List PdfParagraphFragment
deriving DecidableEq, Repr

/-- `PdfLine::new`. -/
def PdfLine.new (alignment : PdfLineAlignment) (bottom left width : PdfPoints)
    (fragments : List PdfParagraphFragment) : PdfLine :=
  { alignment := alignment, bottom := bottom, left := left, width := width
    fragments := fragments }

/-- A group of text objects laid out together as a single paragraph. -/
structure PdfParagraph where
  fragments : List PdfParagraphFragment
  top : Option PdfPoints
  left : Option PdfPoints
  max_width : Option PdfPoints
  max_height : Option PdfPoints
  overflow : PdfParagraphOverflowBehaviour
  alignment : PdfParagraphAlignment
  first_line_indent : PdfPoints
deriving DecidableEq, Repr

/-- The positioned tuple built in `from_objects`'s map over the input
objects: `(object_bottom, object_top, object_left, object_right, object)`.
Per the source, `object_top` is taken from `bounds.height()` and
`object_right` from `bounds.width()` (each field falls back to
`PdfPoints::ZERO` when the object has no bounds). -/
structure PositionedObject where
  object_bottom : PdfPoints
  object_top : PdfPoints
  object_left : PdfPoints
  object_right : PdfPoints
  object : PdfPageObject
deriving DecidableEq, Repr

/-- Builds the positioned tuple for one object, as in the map closure of
`from_objects`. -/
def positionedOf (object : PdfPageObject) : PositionedObject :=
  { object_bottom := (object.bounds.map PdfRect.bottom).getD PdfPoints.ZERO
    object_top := (object.bounds.map PdfRect.height).getD PdfPoints.ZERO
    object_left := (object.bounds.map PdfRect.left).getD PdfPoints.ZERO
    object_right := (object.bounds.map PdfRect.width).getD PdfPoints.ZERO
    object := object }

/-- The running `objects_bottom` accumulator of `from_objects`: the
minimum over every object's `object_bottom`, `none` on empty input. -/
def objects_bottom (objects : List PdfPageObject) : Option PdfPoints :=
  objects.foldl
    (fun acc object =>
      let object_bottom := (positionedOf object).object_bottom
      match acc with
      | some paragraph_bottom =>
          if paragraph_bottom > object_bottom then some object_bottom else acc
      | Option.none => some object_bottom)
    Option.none

/-- The running `objects_top` accumulator of `from_objects`: the maximum
over every object's `object_top` (which the source reads from
`bounds.height()`), `none` on empty input. -/
def objects_top (objects : List PdfPageObject) : Option PdfPoints :=
  objects.foldl
    (fun acc object =>
      let object_top := (positionedOf object).object_top
      match acc with
      | some paragraph_top =>
          if paragraph_top < object_top then some object_top else acc
      | Option.none => some object_top)
    Option.none

/-- The running `objects_left` accumulator of `from_objects`: the minimum
over every object's `object_left`, `none` on empty input. -/
def objects_left (objects : List PdfPageObject) : Option PdfPoints :=
  objects.foldl
    (fun acc object =>
      let object_left := (positionedOf object).object_left
      match acc with
      | some paragraph_left =>
          if paragraph_left > object_left then some object_left else acc
      | Option.none => some object_left)
    Option.none

/-- The running `objects_right` accumulator of `from_objects`: the maximum
over every object's `object_right` (which the source reads from
`bounds.width()`), `none` on empty input. -/
def objects_right (objects : List PdfPageObject) : Option PdfPoints :=
  objects.foldl
    (fun acc object =>
      let object_right := (positionedOf object).object_right
      match acc with
      | some paragraph_right =>
          if paragraph_right < object_right then some object_right else acc
      | Option.none => some object_right)
    Option.none

/-- The pairwise comparator passed to `sorted_by` in `from_objects`. The
source destructures the tuple `(a.0, a.1, a.2, a.3)` as
`(a_top, a_bottom, _, a_right)` and `(b.0, b.1, b.2, b.3)` as
`(b_top, b_bottom, b_left, _)`; those bindings are reproduced here
exactly (so `a_top` is the tuple's `object_bottom` field, and so on). -/
def readingOrderCmp (a b : PositionedObject) : Ordering :=
  let a_top := a.object_bottom
  let a_bottom := a.object_top
  let a_right := a.object_right
  let b_top := b.object_bottom
  let b_bottom := b.object_top
  let b_left := b.object_left
  if b_top < a_bottom then
    Ordering.lt
  else if a_top > b_bottom then
    Ordering.gt
  else if a_right < b_left then
    Ordering.lt
  else
    Ordering.gt

/-- Stable insertion of `x` in front of the first element `y` with
`le x y`. -/
def insertStable {α : Type} (le : α → α → Bool) (x : α) : List α → List α
  | [] => [x]
  | y :: ys => if le x y then x :: y :: ys else y :: insertStable le x ys

/-- A stable sort with respect to the boolean relation `le`, standing in
for the stable `sorted_by` used by the source (stability is the only
property the source relies on, as its comparator is not a strict weak
order). -/
def sorted_by {α : Type} (le : α → α → Bool) : List α → List α
  | [] => []
  | x :: xs => insertStable le x (sorted_by le xs)

/-- The traversal state of the per-object loop in `from_objects`. -/
structure BuilderState where
  lines : List PdfLine
  current_line_fragments : List PdfParagraphFragment
  current_line_bottom : PdfPoints
  current_line_left : PdfPoints
  current_line_right : PdfPoints
  current_line_alignment : PdfLineAlignment
  last_object_bottom : Option PdfPoints
  last_object_height : Option PdfPoints
  last_object_left : Option PdfPoints
  last_object_right : Option PdfPoints
  last_object_width : Option PdfPoints
deriving DecidableEq, Repr

/-- The initial traversal state of `from_objects`. -/
def BuilderState.init : BuilderState :=
  { lines := []
    current_line_fragments := []
    current_line_bottom := PdfPoints.ZERO
    current_line_left := PdfPoints.ZERO
    current_line_right := PdfPoints.ZERO
    current_line_alignment := PdfLineAlignment.None
    last_object_bottom := Option.none
    last_object_height := Option.none
    last_object_left := Option.none
    last_object_right := Option.none
    last_object_width := Option.none }

/-- `ALIGNMENT_THRESHOLD` from `guess_line_alignment`. -/
def ALIGNMENT_THRESHOLD : PdfPoints := 2

/-- `PdfParagraph::guess_line_alignment`: classifies a line's alignment
against the previous line when both its edges are known, otherwise
against the paragraph bounds, with an absolute tolerance of
`ALIGNMENT_THRESHOLD` on each edge. -/
def guess_line_alignment (previous_line_left previous_line_right : Option PdfPoints)
    (line_left line_right paragraph_left paragraph_right : PdfPoints) :
    PdfLineAlignment :=
  match previous_line_left, previous_line_right with
  | some previous_line_left, some previous_line_right =>
      let is_aligned_left := |previous_line_left - line_left| < ALIGNMENT_THRESHOLD
      let is_aligned_right := |previous_line_right - line_right| < ALIGNMENT_THRESHOLD
      match decide is_aligned_left, decide is_aligned_right with
      | true, true => PdfLineAlignment.Justify
      | true, false => PdfLineAlignment.LeftAlign
      | false, true => PdfLineAlignment.RightAlign
      | false, false => PdfLineAlignment.Center
  | _, _ =>
      let is_aligned_left := |paragraph_left - line_left| < ALIGNMENT_THRESHOLD
      let is_aligned_right := |paragraph_right - line_right| < ALIGNMENT_THRESHOLD
      match decide is_aligned_left, decide is_aligned_right with
      | true, true => PdfLineAlignment.Justify
      | true, false => PdfLineAlignment.LeftAlign
      | false, true => PdfLineAlignment.RightAlign
      | false, false => PdfLineAlignment.Center

/-- The fragment-emission step of the per-object loop: merge into the
tail styled string when the styling matches, otherwise append a new
fragment. -/
def emitFragment (current_line_fragments : List PdfParagraphFragment)
    (object : PdfPageObject) : List PdfParagraphFragment :=
  match object.as_text_object with
  | some text_object =>
      match current_line_fragments.getLast? with
      | some (PdfParagraphFragment.StyledString last_string) =>
          if last_string.does_match_object_styling text_object then
            current_line_fragments.dropLast
              ++ [PdfParagraphFragment.StyledString (last_string.push text_object.text " ")]
          else
            current_line_fragments
              ++ [PdfParagraphFragment.StyledString
                    (PdfStyledString.from_text_object text_object)]
      | _ =>
          current_line_fragments
            ++ [PdfParagraphFragment.StyledString
                  (PdfStyledString.from_text_object text_object)]
  | Option.none =>
      current_line_fragments
        ++ [PdfParagraphFragment.NonTextObject object.get_object_handle]

/-- One iteration of the per-object loop of `from_objects`. Per the
source, the loop destructures each positioned tuple as
`(top, bottom, left, right, object)`, so `top` receives the tuple's
`object_bottom` field and `bottom` its `object_top` field. -/
def from_objects_step (paragraph_left paragraph_right : PdfPoints)
    (st : BuilderState) (p : PositionedObject) : BuilderState :=
  let top := p.object_bottom
  let bottom := p.object_top
  let left := p.object_left
  let right := p.object_right
  let st :=
    if st.last_object_left.isNone
        || decide (left < st.last_object_left.getD PdfPoints.ZERO) then
      let next_line_alignment :=
        guess_line_alignment st.last_object_left st.last_object_right
          left right paragraph_left paragraph_right
      if next_line_alignment ≠ st.current_line_alignment
          || decide (st.last_object_bottom.getD PdfPoints.ZERO
              - st.last_object_height.getD PdfPoints.ZERO > top) then
        { st with
            lines := st.lines
              ++ [PdfLine.new st.current_line_alignment st.current_line_bottom
                    st.current_line_left (right - st.current_line_left)
                    st.current_line_fragments]
            current_line_fragments :=
              [PdfParagraphFragment.LineBreak st.current_line_alignment]
            current_line_left := left
            current_line_bottom := bottom
            current_line_alignment := next_line_alignment }
      else
        st
    else
      st
  { st with
      last_object_left := some left
      last_object_right := some right
      last_object_width := some (right - left)
      last_object_bottom := some bottom
      last_object_height := some (top - bottom)
      current_line_right := right
      current_line_fragments := emitFragment st.current_line_fragments p.object }

/-- The list of `PdfLine`s accumulated by `from_objects` just before it
builds (and currently discards) its paragraphs: sort the positioned
objects with the reading-order comparator, run the per-object loop, and
close the final line. -/
def from_objects_lines (objects : List PdfPageObject) : List PdfLine :=
  let positioned_objects :=
    sorted_by (fun a b => readingOrderCmp a b ≠ Ordering.gt)
      (objects.map positionedOf)
  let paragraph_left := (objects_left objects).getD PdfPoints.ZERO
  let paragraph_right := (objects_right objects).getD paragraph_left
  let final :=
    positioned_objects.foldl (from_objects_step paragraph_left paragraph_right)
      BuilderState.init
  final.lines
    ++ [PdfLine.new final.current_line_alignment final.current_line_bottom
          final.current_line_left (final.current_line_right - final.current_line_left)
          final.current_line_fragments]

/-- `PdfParagraph::from_objects`: assembles lines from the given objects,
then drains them (the segmentation into paragraphs is commented out in
the source), returning the untouched empty `paragraphs` vector. -/
def from_objects (objects : List PdfPageObject) : List PdfParagraph :=
  let _lines := from_objects_lines objects
  let paragraphs : List PdfParagraph := []
  paragraphs

/-- `PdfParagraph::empty`: a paragraph with no fragments and the given
maximum line width, overflow, and alignment settings. -/
def PdfParagraph.empty (maximum_width : PdfPoints)
    (overflow : PdfParagraphOverflowBehaviour) (alignment : PdfParagraphAlignment) :
    PdfParagraph :=
  { fragments := []
    top := Option.none
    left := Option.none
    max_width := some maximum_width
    max_height := Option.none
    overflow := overflow
    alignment := alignment
    first_line_indent := PdfPoints.ZERO }

/-- `PdfParagraph::is_empty`. -/
def PdfParagraph.is_empty (self : PdfParagraph) : Bool :=
  self.fragments.isEmpty

/-- `PdfParagraph::push`: merge the given styled string into the tail
fragment when it is a styled string with matching styling, otherwise
append it as a new fragment. -/
def PdfParagraph.push (self : PdfParagraph) (string : PdfStyledString) : PdfParagraph :=
  match self.fragments.getLast? with
  | some (PdfParagraphFragment.StyledString last_string) =>
      if last_string.does_match_string_styling string then
        { self with
            fragments := self.fragments.dropLast
              ++ [PdfParagraphFragment.StyledString (last_string.push string.text " ")] }
      else
        { self with
            fragments := self.fragments ++ [PdfParagraphFragment.StyledString string] }
  | _ =>
      { self with
          fragments := self.fragments ++ [PdfParagraphFragment.StyledString string] }

/-- `PdfParagraph::maximum_width`. -/
def PdfParagraph.maximum_width (self : PdfParagraph) : PdfPoints :=
  self.max_width.getD PdfPoints.ZERO

/-- The behaviour of Rust's `[String]::join(separator)`, used by `text`
and `text_separated`: the elements in order with `separator` between
each adjacent pair. -/
def joinWith (separator : String) : List String → String
  | [] => ""
  | [s] => s
  | s :: rest => s ++ separator ++ joinWith separator rest

/-- `PdfParagraph::text`: the texts of all styled-string fragments,
with `"\n"` for each line break and non-text fragments skipped,
joined with the empty separator. -/
def PdfParagraph.text (self : PdfParagraph) : String :=
  joinWith "" (self.fragments.filterMap fun fragment =>
    match fragment with
    | PdfParagraphFragment.StyledString string => some string.text
    | PdfParagraphFragment.LineBreak _ => some "\n"
    | _ => Option.none)

/-- `PdfParagraph::text_separated`: the texts of all styled-string
fragments (only), joined with the given separator. -/
def PdfParagraph.text_separated (self : PdfParagraph) (separator : String) : String :=
  joinWith separator (self.fragments.filterMap fun fragment =>
    match fragment with
    | PdfParagraphFragment.StyledString string => some string.text
    | _ => Option.none)

/-- `PdfParagraph::to_lines` is `todo!()` in the source: it can never
produce a value, modelled as constant failure. -/
def PdfParagraph.to_lines (_self : PdfParagraph) : Option (List PdfLine) :=
  Option.none

/-- C2 claim-side comparator, following the claim's words on the actual
bounds fields of the two objects: A before B when `B.top < A.bottom`,
A after B when `A.top > B.bottom`, else A before B exactly when
`A.right < B.left`. -/
def readingOrderCmp_claimed (a b : PdfRect) : Ordering :=
  if b.top < a.bottom then Ordering.lt
  else if a.top > b.bottom then Ordering.gt
  else if a.right < b.left then Ordering.lt
  else Ordering.gt

/-- C7 claim-side classifier: reference edges are the previous line's
when both are present, else the paragraph bag's; with
`L = |ref_left - line_left| < 2` and `R = |ref_right - line_right| < 2`,
returns Justify when `L ∧ R`, LeftAlign when `L` only, RightAlign when
`R` only, and Center when neither. -/
def guess_line_alignment_claimed (previous_line_left previous_line_right : Option PdfPoints)
    (line_left line_right paragraph_left paragraph_right : PdfPoints) : PdfLineAlignment :=
  match previous_line_left, previous_line_right with
  | some ref_left, some ref_right =>
      if |ref_left - line_left| < (2 : PdfPoints) ∧ |ref_right - line_right| < (2 : PdfPoints)
        then PdfLineAlignment.Justify
      else if |ref_left - line_left| < (2 : PdfPoints) then PdfLineAlignment.LeftAlign
      else if |ref_right - line_right| < (2 : PdfPoints) then PdfLineAlignment.RightAlign
      else PdfLineAlignment.Center
  | _, _ =>
      if |paragraph_left - line_left| < (2 : PdfPoints)
          ∧ |paragraph_right - line_right| < (2 : PdfPoints)
        then PdfLineAlignment.Justify
      else if |paragraph_left - line_left| < (2 : PdfPoints) then PdfLineAlignment.LeftAlign
      else if |paragraph_right - line_right| < (2 : PdfPoints) then PdfLineAlignment.RightAlign
      else PdfLineAlignment.Center

/-- C9 claim-side reading of `text()`: concatenate in order, one `"\n"`
per line break, opaque fragments skipped. -/
def textOfFragments : List PdfParagraphFragment → String
  | [] => ""
  | PdfParagraphFragment.StyledString string :: rest => string.text ++ textOfFragments rest
  | PdfParagraphFragment.LineBreak _ :: rest => "\n" ++ textOfFragments rest
  | PdfParagraphFragment.NonTextObject _ :: rest => textOfFragments rest

/-- C9 claim-side reading of `text_separated`'s fragment selection: the
styled-string texts in order, with line breaks and opaque fragments
skipped. -/
def styledTexts : List PdfParagraphFragment → List String
  | [] => []
  | PdfParagraphFragment.StyledString string :: rest => string.text :: styledTexts rest
  | _ :: rest => styledTexts rest

/-- Plain concatenation of a list of strings. -/
def concatAll : List String → String
  | [] => ""
  | s :: rest => s ++ concatAll rest

/-- Whether two adjacent fragments are allowed next to each other by the
coalescing invariant: any pair is fine unless both are styled strings
with matching styling. -/
def stylesDiffer : PdfParagraphFragment → PdfParagraphFragment → Bool
  | PdfParagraphFragment.StyledString a, PdfParagraphFragment.StyledString b =>
      !a.does_match_string_styling b
  | _, _ => true

/-- The coalescing invariant: no two adjacent styled-string fragments
have matching styling. -/
def noAdjacentMatching : List PdfParagraphFragment → Bool
  | f :: g :: rest => stylesDiffer f g && noAdjacentMatching (g :: rest)
  | _ => true

/-- Whether a fragment may be appended after the last fragment of `l`
without violating the coalescing invariant. -/
def lastStyledOk (l : List PdfParagraphFragment) (f : PdfParagraphFragment) : Bool :=
  match l.getLast? with
  | some g => stylesDiffer g f
  | Option.none => true

/-- A sample font used by the concrete inputs below. -/
def sampleFont : PdfFont :=
  { handle := 0, name := "F", is_all_caps := false, is_small_caps := false }

/-- The single text object of claim C1's boundary case: text `"Hello"`,
bounds `(left 0, bottom 0, right 30, top 10)`. -/
def c1_object : PdfPageObject :=
  { bounds := some { left := 0, bottom := 0, right := 30, top := 10 }
    as_text_object := some { text := "Hello", font := sampleFont, unscaled_font_size := 12 }
    get_object_handle := 1 }

/-- Claim C2's failing input, object A: bounds
`(left 0, bottom 50, right 10, top 200)` (height 150, width 10). -/
def c2_objectA : PdfPageObject :=
  { bounds := some { left := 0, bottom := 50, right := 10, top := 200 }
    as_text_object := some { text := "a", font := sampleFont, unscaled_font_size := 12 }
    get_object_handle := 2 }

/-- Claim C2's failing input, object B: bounds
`(left 0, bottom 60, right 10, top 70)` (height 10, width 10). -/
def c2_objectB : PdfPageObject :=
  { bounds := some { left := 0, bottom := 60, right := 10, top := 70 }
    as_text_object := some { text := "b", font := sampleFont, unscaled_font_size := 12 }
    get_object_handle := 3 }

/-- Claim C3's failing input: one object with bounds
`(left 10, bottom 5, right 30, top 20)` (height 15, width 20). -/
def c3_object : PdfPageObject :=
  { bounds := some { left := 10, bottom := 5, right := 30, top := 20 }
    as_text_object := some { text := "c", font := sampleFont, unscaled_font_size := 12 }
    get_object_handle := 4 }

/-- Claim C4's failing input, first object: bounds
`(left 2, bottom 10, right 51, top 20)` (height 10, width 49). -/
def c4_object1 : PdfPageObject :=
  { bounds := some { left := 2, bottom := 10, right := 51, top := 20 }
    as_text_object := some { text := "a", font := sampleFont, unscaled_font_size := 12 }
    get_object_handle := 5 }

/-- Claim C4's failing input, second object: bounds
`(left 0, bottom 0, right 50, top 5)` (height 5, width 50). -/
def c4_object2 : PdfPageObject :=
  { bounds := some { left := 0, bottom := 0, right := 50, top := 5 }
    as_text_object := some { text := "b", font := sampleFont, unscaled_font_size := 12 }
    get_object_handle := 6 }

lemma noAdjacentMatching_cons_cons (f g : PdfParagraphFragment)
    (rest : List PdfParagraphFragment) :
    noAdjacentMatching (f :: g :: rest) =
      (stylesDiffer f g && noAdjacentMatching (g :: rest)) := rfl

lemma noAdjacentMatching_concat (l : List PdfParagraphFragment)
    (f : PdfParagraphFragment) :
    noAdjacentMatching (l ++ [f]) = (noAdjacentMatching l && lastStyledOk l f) := by
  induction l with
  | nil => simp [noAdjacentMatching, lastStyledOk]
  | cons x xs ih =>
    cases xs with
    | nil => simp [noAdjacentMatching, lastStyledOk]
    | cons y ys =>
      rw [show (x :: y :: ys) ++ [f] = x :: ((y :: ys) ++ [f]) from rfl]
      rw [show (y :: ys) ++ [f] = y :: (ys ++ [f]) from rfl, noAdjacentMatching_cons_cons,
        show y :: (ys ++ [f]) = (y :: ys) ++ [f] from rfl, ih, noAdjacentMatching_cons_cons]
      have hl : lastStyledOk (x :: y :: ys) f = lastStyledOk (y :: ys) f := by
        simp [lastStyledOk, List.getLast?_cons_cons]
      rw [hl, Bool.and_assoc]

lemma stylesDiffer_push_right (g : PdfParagraphFragment) (s : PdfStyledString)
    (t sep : String) :
    stylesDiffer g (PdfParagraphFragment.StyledString (s.push t sep)) =
      stylesDiffer g (PdfParagraphFragment.StyledString s) := by
  cases g <;> rfl

lemma lastStyledOk_push (l : List PdfParagraphFragment) (s : PdfStyledString)
    (t sep : String) :
    lastStyledOk l (PdfParagraphFragment.StyledString (s.push t sep)) =
      lastStyledOk l (PdfParagraphFragment.StyledString s) := by
  unfold lastStyledOk
  cases l.getLast? with
  | none => rfl
  | some g => simp only [stylesDiffer_push_right]

lemma push_preserves_noAdjacentMatching (p : PdfParagraph) (s : PdfStyledString)
    (h : noAdjacentMatching p.fragments = true) :
    noAdjacentMatching ((p.push s).fragments) = true := by
  unfold PdfParagraph.push
  rcases List.eq_nil_or_concat p.fragments with h0 | ⟨l, x, h0⟩
  · rw [h0]
    simp [noAdjacentMatching]
  · rw [List.concat_eq_append] at h0
    rw [h0] at h ⊢
    rw [List.getLast?_concat]
    cases x with
    | StyledString last_string =>
      by_cases hm : last_string.does_match_string_styling s = true
      · simp only [hm, if_pos, List.dropLast_concat]
        rw [noAdjacentMatching_concat] at h ⊢
        rw [lastStyledOk_push]
        exact h
      · rw [Bool.not_eq_true] at hm
        simp only [hm, Bool.false_eq_true, if_neg, not_false_iff]
        rw [noAdjacentMatching_concat]
        rw [Bool.and_eq_true]
        refine ⟨h, ?_⟩
        simp [lastStyledOk, List.getLast?_concat, stylesDiffer, hm]
    | LineBreak a =>
      rw [noAdjacentMatching_concat, Bool.and_eq_true]
      exact ⟨h, by simp [lastStyledOk, List.getLast?_concat, stylesDiffer]⟩
    | NonTextObject n =>
      rw [noAdjacentMatching_concat, Bool.and_eq_true]
      exact ⟨h, by simp [lastStyledOk, List.getLast?_concat, stylesDiffer]⟩

lemma foldl_push_preserves (pushes : List PdfStyledString) :
    ∀ p : PdfParagraph, noAdjacentMatching p.fragments = true →
      noAdjacentMatching ((pushes.foldl PdfParagraph.push p).fragments) = true := by
  induction pushes with
  | nil => exact fun p h => h
  | cons s rest ih =>
      exact fun p h => ih (p.push s) (push_preserves_noAdjacentMatching p s h)

lemma joinWith_empty_sep (l : List String) : joinWith "" l = concatAll l := by
  induction l with
  | nil => rfl
  | cons s rest ih =>
    cases rest with
    | nil => simp [joinWith, concatAll, String.append_empty]
    | cons t r =>
      simp only [joinWith, concatAll] at *
      rw [ih, String.append_empty]

lemma concatAll_filterMap_text (frags : List PdfParagraphFragment) :
    concatAll (frags.filterMap fun fragment =>
      match fragment with
      | PdfParagraphFragment.StyledString string => some string.text
      | PdfParagraphFragment.LineBreak _ => some "\n"
      | _ => Option.none) = textOfFragments frags := by
  induction frags with
  | nil => rfl
  | cons f rest ih =>
    cases f <;> simp [List.filterMap_cons, concatAll, textOfFragments, ih]

lemma filterMap_styledTexts (frags : List PdfParagraphFragment) :
    (frags.filterMap fun fragment =>
      match fragment with
      | PdfParagraphFragment.StyledString string => some string.text
      | _ => Option.none) = styledTexts frags := by
  induction frags with
  | nil => rfl
  | cons f rest ih =>
    cases f <;> simp [List.filterMap_cons, styledTexts, ih]

/-- C1: the claim states that `from_objects` on a slice containing one
text page object returns exactly one paragraph (and a non-empty ordered
list on any non-empty input). The code disagrees: the segmentation of
lines into paragraphs is unimplemented (the `paragraphs` vector is never
filled; the assembled lines are only drained and printed), so
`from_objects` returns the empty list on the single-object input — and
indeed on every input. -/
theorem from_objects_single_object_yields_no_paragraph :
    from_objects [c1_object] = [] ∧
      ∀ objects : List PdfPageObject, from_objects objects = [] :=
  ⟨rfl, fun _ => rfl⟩

/-- C2: the claim describes the reading-order comparator on the actual
bounds fields `(top, bottom, left, right)`. On object A with bounds
`(left 0, bottom 50, right 10, top 200)` and object B with bounds
`(left 0, bottom 60, right 10, top 70)`, the claimed comparator orders A
after B (`A.top = 200 > B.bottom = 60`), but the code orders A before B:
its positioned tuple carries `bounds.height()` in the `top` slot and
`bounds.width()` in the `right` slot, and the comparator additionally
swaps the first two tuple components when destructuring, so it compares
`B.bottom = 60 < A.height = 150` and yields `Less`. -/
theorem reading_order_comparator_uses_conflated_fields :
    readingOrderCmp (positionedOf c2_objectA) (positionedOf c2_objectB) = Ordering.lt ∧
      readingOrderCmp_claimed { left := 0, bottom := 50, right := 10, top := 200 }
        { left := 0, bottom := 60, right := 10, top := 70 } = Ordering.gt :=
  ⟨by decide, by decide⟩

/-- C3: the claim states the traversal's extents are
`min left / max right / max top / min bottom` of the objects' bounds.
For the single object with bounds `(left 10, bottom 5, right 30, top 20)`
the code's left and bottom accumulators are indeed `10` and `5`, but its
top accumulator reads `bounds.height()` and yields `15` (not `20`), and
its right accumulator reads `bounds.width()` and yields `20` (not `30`). -/
theorem paragraph_extents_use_height_and_width :
    objects_left [c3_object] = some 10 ∧ objects_bottom [c3_object] = some 5 ∧
      objects_top [c3_object] = some 15 ∧ objects_right [c3_object] = some 20 ∧
      objects_top [c3_object] ≠ some 20 ∧ objects_right [c3_object] ≠ some 30 := by
  decide

/-- C4: on the two objects with bounds `(left 2, bottom 10, right 51,
top 20)` then `(left 0, bottom 0, right 50, top 5)`, the second object
starts a new line (`0 < 2`). There the candidate line's alignment is
`RightAlign` both as the code classifies it (previous edges `2`/`49`,
the `49` being the previous width the code carries in its right slot;
candidate `0`/`50`; third conjunct) and as the claim's classifier reads
it on the real bounds (previous edges `2`/`51`, candidate `0`/`50`,
paragraph bag `0`/`51`; fourth conjunct), and it equals the alignment
the traversal holds for the line being closed (`RightAlign`, chosen at
the first object under every one of these readings; the second closed
record's alignment field, second conjunct). So under the claim the
promotion hinges on the vertical-gap test on real bounds,
`last_object.bottom - last_object.height > top`, i.e.
`10 - (20 - 10) > 5`, which is false (fifth conjunct): the claim
forbids a paragraph break and exactly two line records would close. The
code still promotes, because its loop destructures the positioned tuple
in swapped order and so evaluates the gap test as
`height - (bottom - height) > bottom`, i.e. `10 - (10 - 10) > 0`, true;
three line records result (first conjunct). -/
theorem paragraph_break_gap_test_uses_conflated_fields :
    (from_objects_lines [c4_object1, c4_object2]).length = 3 ∧
      (from_objects_lines [c4_object1, c4_object2]).map PdfLine.alignment
        = [PdfLineAlignment.None, PdfLineAlignment.RightAlign,
            PdfLineAlignment.RightAlign] ∧
      guess_line_alignment (some 2) (some 49) 0 50 0 50 = PdfLineAlignment.RightAlign ∧
      guess_line_alignment_claimed (some 2) (some 51) 0 50 0 51
        = PdfLineAlignment.RightAlign ∧
      ¬ ((10 : PdfPoints) - ((20 : PdfPoints) - 10) > 5) := by
  decide

/-- C5: the claimed round-trip law cannot hold on the code:
`to_lines` is `todo!()` (it never returns, modelled as constant
failure), and `from_objects` returns the empty list on every input, so
it never yields a list containing exactly one paragraph. -/
theorem round_trip_not_implemented :
    (∀ p : PdfParagraph, p.to_lines = Option.none) ∧
      (∀ objects : List PdfPageObject, from_objects objects = []) :=
  ⟨fun _ => rfl, fun _ => rfl⟩

/-- C6: the style-equivalence predicate returns `true` exactly when the
font sizes are equal, the font handles are equal, and either both font
names are empty or (at least one being non-empty) the names are equal;
the right-hand side mentions neither `is_all_caps` nor `is_small_caps`,
so they play no role in the decision. -/
theorem does_match_raw_styling_iff (self : PdfStyledString) (other_font_size : PdfPoints)
    (other_font : PdfFont) :
    self.does_match_raw_styling other_font_size other_font = true ↔
      (self.font_size = other_font_size ∧
        self.font.get_handle = other_font.get_handle ∧
        ((self.font.name = "" ∧ other_font.name = "") ∨
          ((self.font.name ≠ "" ∨ other_font.name ≠ "") ∧
            self.font.name = other_font.name))) := by
  unfold PdfStyledString.does_match_raw_styling
  by_cases h1 : self.font_size = other_font_size <;>
    by_cases h2 : self.font.get_handle = other_font.get_handle <;>
      by_cases h3 : self.font.name = "" <;>
        by_cases h4 : other_font.name = "" <;>
          simp [h1, h2, h3, h4, String.isEmpty_iff, Bool.eq_false_iff]

/-- C7: `guess_line_alignment` takes the previous line's left/right as
reference when both are present and the paragraph bag's otherwise, and
with `L`/`R` the within-2.0 edge tests it returns Justify on `L ∧ R`,
LeftAlign on `L` alone, RightAlign on `R` alone, and Center on neither —
exactly the claim-side classifier. -/
theorem guess_line_alignment_matches_claim
    (previous_line_left previous_line_right : Option PdfPoints)
    (line_left line_right paragraph_left paragraph_right : PdfPoints) :
    guess_line_alignment previous_line_left previous_line_right line_left line_right
        paragraph_left paragraph_right =
      guess_line_alignment_claimed previous_line_left previous_line_right line_left
        line_right paragraph_left paragraph_right := by
  unfold guess_line_alignment guess_line_alignment_claimed ALIGNMENT_THRESHOLD
  cases previous_line_left with
  | none =>
      by_cases hL : |paragraph_left - line_left| < (2 : PdfPoints) <;>
        by_cases hR : |paragraph_right - line_right| < (2 : PdfPoints) <;>
          simp [hL, hR]
  | some a =>
      cases previous_line_right with
      | none =>
          by_cases hL : |paragraph_left - line_left| < (2 : PdfPoints) <;>
            by_cases hR : |paragraph_right - line_right| < (2 : PdfPoints) <;>
              simp [hL, hR]
      | some b =>
          by_cases hL : |a - line_left| < (2 : PdfPoints) <;>
            by_cases hR : |b - line_right| < (2 : PdfPoints) <;>
              simp [hL, hR]

/-- C8: coalescing invariant. Any sequence of `push` operations starting
from `empty` leaves no two adjacent styled-string fragments with
matching styling; and every paragraph produced by `from_objects`
satisfies the same invariant (vacuously so, as `from_objects` currently
produces no paragraphs). -/
theorem coalescing_invariant :
    (∀ (maximum_width : PdfPoints) (overflow : PdfParagraphOverflowBehaviour)
        (alignment : PdfParagraphAlignment) (pushes : List PdfStyledString),
      noAdjacentMatching
        ((pushes.foldl PdfParagraph.push
            (PdfParagraph.empty maximum_width overflow alignment)).fragments) = true) ∧
      (∀ objects : List PdfPageObject,
        ((from_objects objects).all fun p => noAdjacentMatching p.fragments) = true) :=
  ⟨fun _ _ _ pushes => foldl_push_preserves pushes _ rfl, fun _ => rfl⟩

/-- C9: `text()` concatenates the styled texts in order with `"\n"`
emitted per line break and opaque fragments skipped; `text_separated`
joins the styled texts (only) with the given separator; and on fragments
`[S1, LineBreak, S2]` they give `S1.text ++ "\n" ++ S2.text` and
`S1.text ++ "|" ++ S2.text` respectively. -/
theorem text_and_text_separated_spec :
    (∀ p : PdfParagraph, p.text = textOfFragments p.fragments) ∧
      (∀ (p : PdfParagraph) (separator : String),
        p.text_separated separator = joinWith separator (styledTexts p.fragments)) ∧
      (∀ (s1 s2 : PdfStyledString) (a : PdfLineAlignment)
          (top left mw mh : Option PdfPoints) (ov : PdfParagraphOverflowBehaviour)
          (al : PdfParagraphAlignment) (fli : PdfPoints),
        (PdfParagraph.mk
            [PdfParagraphFragment.StyledString s1, PdfParagraphFragment.LineBreak a,
              PdfParagraphFragment.StyledString s2] top left mw mh ov al fli).text
            = s1.text ++ "\n" ++ s2.text ∧
          (PdfParagraph.mk
              [PdfParagraphFragment.StyledString s1, PdfParagraphFragment.LineBreak a,
                PdfParagraphFragment.StyledString s2] top left mw mh ov al
              fli).text_separated "|"
            = s1.text ++ "|" ++ s2.text) := by
  refine ⟨?_, ?_, ?_⟩
  · intro p
    unfold PdfParagraph.text
    rw [joinWith_empty_sep, concatAll_filterMap_text]
  · intro p separator
    unfold PdfParagraph.text_separated
    rw [filterMap_styledTexts]
  · intro s1 s2 a top left mw mh ov al fli
    constructor
    · unfold PdfParagraph.text
      simp [List.filterMap_cons, joinWith, String.append_empty, String.append_assoc]
    · unfold PdfParagraph.text_separated
      simp [List.filterMap_cons, joinWith]

/-- C10: `PdfStyledString::push` on text that does not end with the
separator produces `existing ++ sep ++ text` — including when the
existing text is empty; consequently a same-style merge through
`PdfParagraph::push` into a tail fragment with empty text yields a text
with a leading `" "` separator rather than the new text alone. -/
theorem styled_string_push_leading_separator :
    (∀ (s : PdfStyledString) (t sep : String), s.text.endsWith sep = false →
      (s.push t sep).text = s.text ++ sep ++ t) ∧
      (∀ (e string : PdfStyledString) (top left mw mh : Option PdfPoints)
          (ov : PdfParagraphOverflowBehaviour) (al : PdfParagraphAlignment)
          (fli : PdfPoints),
        e.text = "" → e.does_match_string_styling string = true →
        ((PdfParagraph.mk [PdfParagraphFragment.StyledString e] top left mw mh ov al
            fli).push string).fragments
          = [PdfParagraphFragment.StyledString { e with text := " " ++ string.text }]) := by
  constructor
  · intro s t sep h
    unfold PdfStyledString.push
    simp [h]
  · intro e string top left mw mh ov al fli he hm
    unfold PdfParagraph.push
    simp only [List.getLast?_singleton]
    simp only [hm, if_true]
    unfold PdfStyledString.push
    rw [he]
    rw [show (("" : String).endsWith " ") = false from by decide]
    simp [String.empty_append]

/-- Witness for C10: applies the theorem at an empty existing text with
separator `" "` and new text `"x"`, and at a paragraph holding one
empty-text fragment styled like the pushed string. -/
theorem styled_string_push_leading_separator_witness :
    ((PdfStyledString.mk "" sampleFont 12).push "x" " ").text = "" ++ " " ++ "x" ∧
      ((PdfParagraph.mk
          [PdfParagraphFragment.StyledString (PdfStyledString.mk "" sampleFont 12)]
          Option.none Option.none Option.none Option.none
          PdfParagraphOverflowBehaviour.Clip PdfParagraphAlignment.LeftAlign 0).push
          (PdfStyledString.mk "x" sampleFont 12)).fragments
        = [PdfParagraphFragment.StyledString
            { PdfStyledString.mk "" sampleFont 12 with text := " " ++ "x" }] :=
  ⟨styled_string_push_leading_separator.1 (PdfStyledString.mk "" sampleFont 12) "x" " "
      (by decide),
    styled_string_push_leading_separator.2 (PdfStyledString.mk "" sampleFont 12)
      (PdfStyledString.mk "x" sampleFont 12) Option.none Option.none Option.none
      Option.none PdfParagraphOverflowBehaviour.Clip PdfParagraphAlignment.LeftAlign 0
      rfl (by decide)⟩
